import Mathlib

/-!
Verification of the xregrid repository snapshot against its specification.

The embedding models the Python sources shallowly:

* machine floats are modelled by exact rationals (`ℚ`);
* `numpy.arange` is modelled by its documented semantics for a positive step;
* Python `None` results are modelled by `Option.none`;
* labeled arrays (`xarray.DataArray`) keep only the structure the claims
  touch: dimension names, flat data, and attribute lists.

Components of the repository that are referenced by `__init__.py` and the
test suite but whose source module is absent from the snapshot
(`Regridder` / the weight store / the application engine) are modelled from
the specification; each such definition carries a doc comment starting with
"Modelled from the spec:".
-/

namespace Xregrid

/-- A labeled array (xarray.DataArray): dimension names and flat data.
Floats are modelled as exact rationals. -/
structure DataArray where
  dims : List String
  data : List ℚ
deriving DecidableEq, Repr

/-- The filesystem visible to the library: a map from a path to the textual
content of the file at that path, when one exists. -/
def FileSystem : Type := String → Option String

/-- Model of class SMM from src/xregrid/smm.py as it stands in this
snapshot: the body of SMM.__init__ is a bare ellipsis expression, so the
constructor binds no attributes and performs no I/O; the constructed object
carries no state at all. -/
structure SMM where
deriving Repr

/-- SMM.__init__ from src/xregrid/smm.py: the ellipsis body evaluates the
ellipsis constant and returns; nothing is read from the filesystem and
nothing is stored on the object. -/
def SMM.init (fs : FileSystem) (weights : String) : SMM := {}

/-- SMM.__call__ from src/xregrid/smm.py: the ellipsis body evaluates the
ellipsis constant, so the call returns Python None for every input, despite
the declared return type xr.DataArray. -/
def SMM.call (s : SMM) (src : DataArray) : Option DataArray := none

/-- Model of numpy.arange(start, stop, step) for a positive step, over exact
rationals: ceil((stop - start) / step) evenly spaced values beginning at
start. -/
def arange (start stop step : ℚ) : List ℚ :=
  (List.range (⌈(stop - start) / step⌉).toNat).map (fun (i : ℕ) => start + (i : ℚ) * step)

/-- The parts of an xarray.Dataset produced by the grid constructors in
src/xregrid/utils.py that the claims touch: center coordinates, optional
bounds coordinates, and per-coordinate attribute lists. -/
structure GridDataset where
  lat : List ℚ
  lon : List ℚ
  lat_b : Option (List ℚ)
  lon_b : Option (List ℚ)
  latAttrs : List (String × String)
  lonAttrs : List (String × String)
deriving DecidableEq, Repr

/-- Attribute lookup in an attribute list, first match wins. -/
def attrLookup (attrs : List (String × String)) (key : String) : Option String :=
  (attrs.find? (fun p => p.1 == key)).map (fun p => p.2)

/-- create_global_grid from src/xregrid/utils.py: global rectilinear grid;
centers lat = arange(-90 + res_lat/2, 90, res_lat),
lon = arange(res_lon/2, 360, res_lon); with add_bounds, bounds
lat_b = arange(-90, 90 + res_lat, res_lat),
lon_b = arange(0, 360 + res_lon, res_lon), and a "bounds" attribute is set
on each center coordinate. -/
def create_global_grid (res_lat res_lon : ℚ) (add_bounds : Bool) : GridDataset :=
  let lat := arange (-90 + res_lat / 2) 90 res_lat
  let lon := arange (0 + res_lon / 2) 360 res_lon
  let base : GridDataset :=
    { lat := lat, lon := lon, lat_b := none, lon_b := none
      latAttrs := [("units", "degrees_north"), ("standard_name", "latitude")]
      lonAttrs := [("units", "degrees_east"), ("standard_name", "longitude")] }
  if add_bounds then
    { base with
      lat_b := some (arange (-90) (90 + res_lat) res_lat)
      lon_b := some (arange 0 (360 + res_lon) res_lon)
      latAttrs := base.latAttrs ++ [("bounds", "lat_b")]
      lonAttrs := base.lonAttrs ++ [("bounds", "lon_b")] }
  else base

/-- create_regional_grid from src/xregrid/utils.py: regional rectilinear
grid over lat_range x lon_range with the same center/bounds construction as
the global grid. -/
def create_regional_grid (lat_range lon_range : ℚ × ℚ) (res_lat res_lon : ℚ)
    (add_bounds : Bool) : GridDataset :=
  let lat := arange (lat_range.1 + res_lat / 2) lat_range.2 res_lat
  let lon := arange (lon_range.1 + res_lon / 2) lon_range.2 res_lon
  let base : GridDataset :=
    { lat := lat, lon := lon, lat_b := none, lon_b := none
      latAttrs := [("units", "degrees_north"), ("standard_name", "latitude")]
      lonAttrs := [("units", "degrees_east"), ("standard_name", "longitude")] }
  if add_bounds then
    { base with
      lat_b := some (arange lat_range.1 (lat_range.2 + res_lat) res_lat)
      lon_b := some (arange lon_range.1 (lon_range.2 + res_lon) res_lon)
      latAttrs := base.latAttrs ++ [("bounds", "lat_b")]
      lonAttrs := base.lonAttrs ++ [("bounds", "lon_b")] }
  else base

lemma arange_length (start stop step : ℚ) :
    (arange start stop step).length = (⌈(stop - start) / step⌉).toNat := by
  simp [arange]

lemma arange_eq_of_ceil (start stop step : ℚ) (k : ℕ)
    (h : ⌈(stop - start) / step⌉ = (k : ℤ)) :
    arange start stop step = (List.range k).map (fun (i : ℕ) => start + (i : ℚ) * step) := by
  unfold arange
  rw [h]
  simp

lemma ceil_natCast_sub_half (k : ℕ) : ⌈((k : ℚ) - 1 / 2)⌉ = (k : ℤ) := by
  have h : ((k : ℚ) - 1 / 2) = (-(1 / 2) : ℚ) + (k : ℕ) := by ring
  have h0 : (⌈(-(1 / 2) : ℚ)⌉) = 0 := by
    rw [Int.ceil_eq_iff] <;> norm_num
  rw [h, Int.ceil_add_nat, h0]
  ring

lemma ceil_natCast_add_one (k : ℕ) : ⌈((k : ℚ) + 1)⌉ = (k : ℤ) + 1 := by
  have h : ((k : ℚ) + 1) = ((1 : ℚ)) + (k : ℕ) := by ring
  have h0 : (⌈(1 : ℚ)⌉) = 1 := by
    rw [Int.ceil_eq_iff] <;> norm_num
  rw [h, Int.ceil_add_nat, h0]
  ring

lemma global_lat (res_lat res_lon : ℚ) (b : Bool) :
    (create_global_grid res_lat res_lon b).lat = arange (-90 + res_lat / 2) 90 res_lat := by
  cases b <;> rfl

lemma global_lon (res_lat res_lon : ℚ) (b : Bool) :
    (create_global_grid res_lat res_lon b).lon = arange (0 + res_lon / 2) 360 res_lon := by
  cases b <;> rfl

/-- C2: constructing SMM(p) performs no action — the result does not depend on
the filesystem or even on the path, because the weight file is never read —
and SMM(p)(src) is Python None for every source array: the engine in this
snapshot is an unimplemented stub. -/
theorem smm_is_stub :
    (∀ (fs fs' : FileSystem) (p p' : String), SMM.init fs p = SMM.init fs' p') ∧
    (∀ (fs : FileSystem) (p : String) (src : DataArray), (SMM.init fs p).call src = none) :=
  ⟨fun _ _ _ _ => rfl, fun _ _ _ => rfl⟩

/-- C1: the claim that SMM.__call__ passes a non-spatial input array through
unchanged fails on this snapshot: on a concrete array whose only dimension
is "time" (so the discovered spatial dimensions are absent), the call
returns Python None, not the input array. -/
theorem smm_call_nonspatial_not_passthrough :
    (SMM.init (fun _ => none) "weights.nc").call ⟨["time"], [1, 2]⟩ = none ∧
    (SMM.init (fun _ => none) "weights.nc").call ⟨["time"], [1, 2]⟩ ≠
      some ⟨["time"], [1, 2]⟩ :=
  ⟨rfl, fun h => Option.noConfusion h⟩

/-- C3: for every resolution r > 0 with 180 = k·r and 360 = m·r (k, m natural),
create_global_grid r r has a lat coordinate that is exactly the k cell
centers -90 + r/2 + i·r and a lon coordinate that is exactly the m cell
centers r/2 + i·r; in particular the lengths are 180/r and 360/r. -/
theorem create_global_grid_centers (r : ℚ) (k m : ℕ)
    (hr : 0 < r) (hk : (k : ℚ) * r = 180) (hm : (m : ℚ) * r = 360) :
    (create_global_grid r r true).lat
        = (List.range k).map (fun (i : ℕ) => -90 + r / 2 + (i : ℚ) * r) ∧
    (create_global_grid r r true).lon
        = (List.range m).map (fun (i : ℕ) => r / 2 + (i : ℚ) * r) ∧
    (create_global_grid r r true).lat.length = k ∧
    (create_global_grid r r true).lon.length = m := by
  have hne : r ≠ 0 := ne_of_gt hr
  have hlat : ⌈((90 : ℚ) - (-90 + r / 2)) / r⌉ = (k : ℤ) := by
    have h1 : ((90 : ℚ) - (-90 + r / 2)) / r = (k : ℚ) - 1 / 2 := by
      rw [div_eq_iff hne]
      linear_combination -hk
    rw [h1, ceil_natCast_sub_half]
  have hlon : ⌈((360 : ℚ) - (0 + r / 2)) / r⌉ = (m : ℤ) := by
    have h1 : ((360 : ℚ) - (0 + r / 2)) / r = (m : ℚ) - 1 / 2 := by
      rw [div_eq_iff hne]
      linear_combination -hm
    rw [h1, ceil_natCast_sub_half]
  have glat : (create_global_grid r r true).lat
      = (List.range k).map (fun (i : ℕ) => -90 + r / 2 + (i : ℚ) * r) := by
    rw [global_lat, arange_eq_of_ceil _ _ _ k hlat]
  have glon : (create_global_grid r r true).lon
      = (List.range m).map (fun (i : ℕ) => r / 2 + (i : ℚ) * r) := by
    rw [global_lon, arange_eq_of_ceil _ _ _ m hlon]
    simp only [zero_add]
  refine ⟨glat, glon, ?_, ?_⟩ <;> simp [glat, glon]

/-- C3 witness: r = 10 yields an 18×36 grid and r = 20 yields a 9×18 grid. -/
theorem create_global_grid_centers_witness :
    (create_global_grid 10 10 true).lat.length = 18 ∧
    (create_global_grid 10 10 true).lon.length = 36 ∧
    (create_global_grid 20 20 true).lat.length = 9 ∧
    (create_global_grid 20 20 true).lon.length = 18 := by
  obtain ⟨-, -, h1, h2⟩ :=
    create_global_grid_centers 10 18 36 (by norm_num) (by norm_num) (by norm_num)
  obtain ⟨-, -, h3, h4⟩ :=
    create_global_grid_centers 20 9 18 (by norm_num) (by norm_num) (by norm_num)
  exact ⟨h1, h2, h3, h4⟩

lemma arange_length_of_ceil (start stop step : ℚ) (k : ℕ)
    (h : ⌈(stop - start) / step⌉ = (k : ℤ)) :
    (arange start stop step).length = k := by
  rw [arange_length, h]
  simp

lemma global_lat_length (res_lat res_lon : ℚ) (k : ℕ) (b : Bool)
    (hr : 0 < res_lat) (hk : (k : ℚ) * res_lat = 180) :
    (create_global_grid res_lat res_lon b).lat.length = k := by
  rw [global_lat]
  refine arange_length_of_ceil _ _ _ k ?_
  have h1 : ((90 : ℚ) - (-90 + res_lat / 2)) / res_lat = (k : ℚ) - 1 / 2 := by
    rw [div_eq_iff (ne_of_gt hr)]
    linear_combination -hk
  rw [h1, ceil_natCast_sub_half]

lemma global_lon_length (res_lat res_lon : ℚ) (m : ℕ) (b : Bool)
    (hr : 0 < res_lon) (hm : (m : ℚ) * res_lon = 360) :
    (create_global_grid res_lat res_lon b).lon.length = m := by
  rw [global_lon]
  refine arange_length_of_ceil _ _ _ m ?_
  have h1 : ((360 : ℚ) - (0 + res_lon / 2)) / res_lon = (m : ℚ) - 1 / 2 := by
    rw [div_eq_iff (ne_of_gt hr)]
    linear_combination -hm
  rw [h1, ceil_natCast_sub_half]

lemma ceil_natCast_succ (k : ℕ) : ⌈((k : ℚ) + 1)⌉ = ((k + 1 : ℕ) : ℤ) := by
  rw [ceil_natCast_add_one]
  push_cast
  ring

/-- C10: with add_bounds and an evenly dividing resolution, both grid
constructors produce bounds arrays one element longer than the center
arrays and link them through a "bounds" attribute naming lat_b / lon_b;
for a non-dividing resolution (r = 80) the length relation fails. -/
theorem grid_bounds_length_relation :
    (∀ (rla rlo : ℚ) (k m : ℕ), 0 < rla → 0 < rlo →
      (k : ℚ) * rla = 180 → (m : ℚ) * rlo = 360 →
      ∃ lb ln, (create_global_grid rla rlo true).lat_b = some lb ∧
        (create_global_grid rla rlo true).lon_b = some ln ∧
        lb.length = (create_global_grid rla rlo true).lat.length + 1 ∧
        ln.length = (create_global_grid rla rlo true).lon.length + 1 ∧
        attrLookup (create_global_grid rla rlo true).latAttrs "bounds" = some "lat_b" ∧
        attrLookup (create_global_grid rla rlo true).lonAttrs "bounds" = some "lon_b") ∧
    (∀ (lo hi lo2 hi2 rla rlo : ℚ) (k m : ℕ), 0 < rla → 0 < rlo →
      (k : ℚ) * rla = hi - lo → (m : ℚ) * rlo = hi2 - lo2 →
      ∃ lb ln, (create_regional_grid (lo, hi) (lo2, hi2) rla rlo true).lat_b = some lb ∧
        (create_regional_grid (lo, hi) (lo2, hi2) rla rlo true).lon_b = some ln ∧
        lb.length = (create_regional_grid (lo, hi) (lo2, hi2) rla rlo true).lat.length + 1 ∧
        ln.length = (create_regional_grid (lo, hi) (lo2, hi2) rla rlo true).lon.length + 1 ∧
        attrLookup (create_regional_grid (lo, hi) (lo2, hi2) rla rlo true).latAttrs "bounds"
          = some "lat_b" ∧
        attrLookup (create_regional_grid (lo, hi) (lo2, hi2) rla rlo true).lonAttrs "bounds"
          = some "lon_b") ∧
    (∃ r : ℚ, 0 < r ∧ ¬ (∃ k : ℕ, (k : ℚ) * r = 180) ∧
      ∃ lb, (create_global_grid r r true).lat_b = some lb ∧
        lb.length ≠ (create_global_grid r r true).lat.length + 1) := by
  refine ⟨?_, ?_, ?_⟩
  · intro rla rlo k m hra hro hk hm
    refine ⟨arange (-90) (90 + rla) rla, arange 0 (360 + rlo) rlo, rfl, rfl, ?_, ?_, rfl, rfl⟩
    · rw [global_lat_length rla rlo k true hra hk]
      refine arange_length_of_ceil _ _ _ (k + 1) ?_
      have h1 : ((90 + rla : ℚ) - (-90)) / rla = (k : ℚ) + 1 := by
        rw [div_eq_iff (ne_of_gt hra)]
        linear_combination -hk
      rw [h1, ceil_natCast_succ]
    · rw [global_lon_length rla rlo m true hro hm]
      refine arange_length_of_ceil _ _ _ (m + 1) ?_
      have h1 : ((360 + rlo : ℚ) - 0) / rlo = (m : ℚ) + 1 := by
        rw [div_eq_iff (ne_of_gt hro)]
        linear_combination -hm
      rw [h1, ceil_natCast_succ]
  · intro lo hi lo2 hi2 rla rlo k m hra hro hk hm
    refine ⟨arange lo (hi + rla) rla, arange lo2 (hi2 + rlo) rlo, rfl, rfl, ?_, ?_, rfl, rfl⟩
    · have hc : (create_regional_grid (lo, hi) (lo2, hi2) rla rlo true).lat
          = arange (lo + rla / 2) hi rla := rfl
      rw [hc, arange_length_of_ceil (lo + rla / 2) hi rla k ?hk1]
      case hk1 =>
        have h1 : (hi - (lo + rla / 2)) / rla = (k : ℚ) - 1 / 2 := by
          rw [div_eq_iff (ne_of_gt hra)]
          linear_combination -hk
        rw [h1, ceil_natCast_sub_half]
      refine arange_length_of_ceil _ _ _ (k + 1) ?_
      have h1 : ((hi + rla : ℚ) - lo) / rla = (k : ℚ) + 1 := by
        rw [div_eq_iff (ne_of_gt hra)]
        linear_combination -hk
      rw [h1, ceil_natCast_succ]
    · have hc : (create_regional_grid (lo, hi) (lo2, hi2) rla rlo true).lon
          = arange (lo2 + rlo / 2) hi2 rlo := rfl
      rw [hc, arange_length_of_ceil (lo2 + rlo / 2) hi2 rlo m ?hm1]
      case hm1 =>
        have h1 : (hi2 - (lo2 + rlo / 2)) / rlo = (m : ℚ) - 1 / 2 := by
          rw [div_eq_iff (ne_of_gt hro)]
          linear_combination -hm
        rw [h1, ceil_natCast_sub_half]
      refine arange_length_of_ceil _ _ _ (m + 1) ?_
      have h1 : ((hi2 + rlo : ℚ) - lo2) / rlo = (m : ℚ) + 1 := by
        rw [div_eq_iff (ne_of_gt hro)]
        linear_combination -hm
      rw [h1, ceil_natCast_succ]
  · refine ⟨80, by norm_num, ?_, arange (-90) (90 + 80) 80, rfl, ?_⟩
    · rintro ⟨k, hk⟩
      have h4 : ((4 * k : ℕ) : ℚ) = 9 := by
        push_cast
        linarith
      have h9 : (4 * k : ℕ) = 9 := by exact_mod_cast h4
      omega
    · have hb : (arange (-90) (90 + 80 : ℚ) 80).length = 4 := by
        refine arange_length_of_ceil _ _ _ 4 ?_
        have h1 : ((90 + 80 : ℚ) - (-90)) / 80 = 13 / 4 := by norm_num
        rw [h1, Int.ceil_eq_iff] <;> norm_num
      have hl : (create_global_grid (80 : ℚ) 80 true).lat.length = 2 := by
        rw [global_lat]
        refine arange_length_of_ceil _ _ _ 2 ?_
        have h1 : ((90 : ℚ) - (-90 + 80 / 2)) / 80 = 7 / 4 := by norm_num
        rw [h1, Int.ceil_eq_iff] <;> norm_num
      rw [hb, hl]
      omega

/-- C10 witness: the 10-degree global grid has 19 latitude bounds for its 18
latitude centers. -/
theorem grid_bounds_length_relation_witness :
    ∃ lb, (create_global_grid 10 10 true).lat_b = some lb ∧
      lb.length = (create_global_grid 10 10 true).lat.length + 1 := by
  obtain ⟨lb, ln, hlb, -, hlen, -⟩ :=
    grid_bounds_length_relation.1 10 10 18 36 (by norm_num) (by norm_num)
      (by norm_num) (by norm_num)
  exact ⟨lb, hlb, hlen⟩

/-- Modelled from the spec: the sparse weight operator of the data model
(its defining module, the Regridder engine imported by __init__.py, is
absent from this snapshot): triplets (row, col, weight) over flattened
destination×source index spaces. -/
structure WeightOperator where
  nSrc : ℕ
  nDst : ℕ
  triplets : List (ℕ × ℕ × ℚ)
deriving DecidableEq, Repr

/-- Modelled from the spec: the weighted sum contributed to destination row
r by a flattened source vector. -/
def rowDot (op : WeightOperator) (r : ℕ) (src : List ℚ) : ℚ :=
  ((op.triplets.filter (fun t => t.1 == r)).map (fun t => t.2.2 * src.getD t.2.1 0)).sum

/-- Modelled from the spec: sparse application — multiply the n_dst×n_src
operator against one flattened spatial vector. -/
def WeightOperator.apply (op : WeightOperator) (src : List ℚ) : List ℚ :=
  (List.range op.nDst).map (fun r => rowDot op r src)

/-- Modelled from the spec: the total incoming weight of destination row r. -/
def totalWeight (op : WeightOperator) (r : ℕ) : ℚ :=
  ((op.triplets.filter (fun t => t.1 == r)).map (fun t => t.2.2)).sum

/-- Modelled from the spec: the precomputed per-destination
total-weight vector. -/
def totalWeights (op : WeightOperator) : List ℚ :=
  (List.range op.nDst).map (fun r => totalWeight op r)

/-- Modelled from the spec: whether destination row r receives any triplet. -/
def WeightOperator.mappedRow (op : WeightOperator) (r : ℕ) : Bool :=
  op.triplets.any (fun t => t.1 == r)

/-- Modelled from the spec: eager apply over batched input — the batch
dimensions stay intact and ordered and the operator contracts the full
spatial vector of every batch element. -/
def applyBatched (op : WeightOperator) (batches : List (List ℚ)) : List (List ℚ) :=
  batches.map op.apply

/-- Modelled from the spec: chunked apply — the input is split into chunks
along batch dimensions only (each chunk holds whole spatial vectors, so the
spatial axis is never split), the per-chunk task applies the same operator
to its chunk, and the per-chunk results are concatenated. -/
def applyChunked (op : WeightOperator) (chunks : List (List (List ℚ))) : List (List ℚ) :=
  (chunks.map (fun chunk => applyBatched op chunk)).flatten

/-- C4: for every operator and every chunking of the batch dimensions,
chunked apply equals eager apply on the concatenation of the chunks
(exactly, in the rational model, hence within any floating tolerance); the
per-chunk task contracts full spatial vectors, so the spatial axis is never
split. -/
theorem chunked_apply_eq_eager (op : WeightOperator) (chunks : List (List (List ℚ))) :
    applyChunked op chunks = applyBatched op chunks.flatten := by
  unfold applyChunked applyBatched
  rw [List.map_flatten]

/-- Modelled from the spec: a batch slice with possible missing values;
none models NaN. -/
def fillZero (v : List (Option ℚ)) : List ℚ :=
  v.map (fun o => o.getD 0)

/-- Modelled from the spec: the validity mask of a slice — 1 where a value
is present, 0 where it is missing. -/
def validMask (v : List (Option ℚ)) : List ℚ :=
  v.map (fun o => if o.isSome then 1 else 0)

/-- Modelled from the spec: whether a slice contains a missing value. -/
def hasMissing (v : List (Option ℚ)) : Bool :=
  v.any (fun o => o.isNone)

/-- Modelled from the spec: skipna application to one batch slice. If the
slice has no missing values, the fast path divides the weighted sums by the
precomputed full total-destination-weight vector; otherwise missing
contributions are zeroed, a slice-specific adjusted weight sum is
recomputed by applying the operator to the validity mask, and the weighted
sum is divided by the adjusted sum elementwise, with NaN (none) where the
adjusted sum is zero. -/
def applySkipna (op : WeightOperator) (totals : List ℚ) (v : List (Option ℚ)) :
    List (Option ℚ) :=
  if hasMissing v then
    let ws := op.apply (fillZero v)
    let adj := op.apply (validMask v)
    (ws.zip adj).map (fun p => if p.2 = 0 then none else some (p.1 / p.2))
  else
    let ws := op.apply (fillZero v)
    (ws.zip totals).map (fun p => some (p.1 / p.2))

/-- C5: on a slice with no missing values, skipna application with the
precomputed total-destination-weight vector coincides exactly with the
non-skipna result (plain sparse application), given the operator's
row-sum invariant in its exact form (every destination row sums to 1). -/
theorem skipna_clean_slice_equiv (op : WeightOperator) (v : List (Option ℚ))
    (hclean : hasMissing v = false)
    (htot : ∀ r < op.nDst, totalWeight op r = 1) :
    applySkipna op (totalWeights op) v = (op.apply (fillZero v)).map some := by
  unfold applySkipna
  rw [hclean]
  simp only [Bool.false_eq_true, if_false]
  unfold WeightOperator.apply totalWeights
  rw [List.zip_map' (fun r => rowDot op r (fillZero v)) (fun r => totalWeight op r)
    (List.range op.nDst)]
  rw [List.map_map, List.map_map]
  refine List.map_congr_left ?_
  intro r hr
  rw [List.mem_range] at hr
  simp [htot r hr]

/-- C5 witness: the equivalence at a concrete 2×2 identity operator and a
concrete clean slice. -/
theorem skipna_clean_slice_equiv_witness :
    applySkipna ⟨2, 2, [(0, 0, 1), (1, 1, 1)]⟩
        (totalWeights ⟨2, 2, [(0, 0, 1), (1, 1, 1)]⟩) [some 3, some 5]
      = ((WeightOperator.apply ⟨2, 2, [(0, 0, 1), (1, 1, 1)]⟩
          (fillZero [some 3, some 5])).map some) :=
  skipna_clean_slice_equiv ⟨2, 2, [(0, 0, 1), (1, 1, 1)]⟩ [some 3, some 5]
    (by decide) (by intro r hr; interval_cases r <;> simp [totalWeight])

/-- Decimal digit to character, for the stable text form of tuples. -/
def digitChar (d : ℕ) : Char :=
  if d = 0 then '0' else if d = 1 then '1' else if d = 2 then '2'
  else if d = 3 then '3' else if d = 4 then '4' else if d = 5 then '5'
  else if d = 6 then '6' else if d = 7 then '7' else if d = 8 then '8' else '9'

/-- Character back to decimal digit. -/
def charDigit (c : Char) : ℕ :=
  if c = '0' then 0 else if c = '1' then 1 else if c = '2' then 2
  else if c = '3' then 3 else if c = '4' then 4 else if c = '5' then 5
  else if c = '6' then 6 else if c = '7' then 7 else if c = '8' then 8 else 9

lemma charDigit_digitChar (d : ℕ) (h : d < 10) : charDigit (digitChar d) = d := by
  interval_cases d <;> rfl

lemma digitChar_ne_comma (d : ℕ) : digitChar d ≠ ',' := by
  unfold digitChar
  split_ifs <;> decide

/-- A natural number in decimal, most significant digit first. -/
def natToChars (k : ℕ) : List Char :=
  ((Nat.digits 10 k).reverse).map digitChar

/-- Parse a decimal digit string. -/
def charsToNat (cs : List Char) : ℕ :=
  cs.foldl (fun a c => a * 10 + charDigit c) 0

lemma foldr_digits_map (l : List ℕ) (h : ∀ d ∈ l, d < 10) :
    (l.map digitChar).foldr (fun c a => a * 10 + charDigit c) 0 = Nat.ofDigits 10 l := by
  induction l with
  | nil => rfl
  | cons d t ih =>
    have hd : d < 10 := h d (List.mem_cons_self d t)
    have ht : ∀ x ∈ t, x < 10 := fun x hx => h x (List.mem_cons_of_mem d hx)
    simp only [List.map_cons, List.foldr_cons, ih ht, Nat.ofDigits_cons,
      charDigit_digitChar d hd]
    ring

lemma charsToNat_natToChars (k : ℕ) : charsToNat (natToChars k) = k := by
  unfold charsToNat natToChars
  rw [List.map_reverse, List.foldl_reverse]
  have h := foldr_digits_map (Nat.digits 10 k)
    (fun d hd => Nat.digits_lt_base (by norm_num) hd)
  rw [h, Nat.ofDigits_digits]

lemma natToChars_no_comma (k : ℕ) : ',' ∉ natToChars k := by
  unfold natToChars
  intro hmem
  obtain ⟨d, -, hd⟩ := List.mem_map.mp hmem
  exact digitChar_ne_comma d hd

/-- Join character groups with a comma separator. -/
def joinComma : List (List Char) → List Char
  | [] => []
  | [g] => g
  | g :: gs => g ++ ',' :: joinComma gs

/-- Split a character list at every comma. -/
def splitComma : List Char → List (List Char)
  | [] => [[]]
  | c :: cs =>
    if c = ',' then [] :: splitComma cs
    else
      match splitComma cs with
      | [] => [[c]]
      | g :: gs => (c :: g) :: gs

lemma splitComma_cons (c : Char) (cs : List Char) :
    splitComma (c :: cs) = if c = ',' then [] :: splitComma cs
      else match splitComma cs with
        | [] => [[c]]
        | g :: gs => (c :: g) :: gs := rfl

lemma splitComma_no_comma (l : List Char) (h : ',' ∉ l) : splitComma l = [l] := by
  induction l with
  | nil => rfl
  | cons c cs ih =>
    have hc : ¬(c = ',') := fun hcc => h (hcc ▸ List.mem_cons_self c cs)
    have hcs : ',' ∉ cs := fun hmem => h (List.mem_cons_of_mem c hmem)
    rw [splitComma_cons, if_neg hc, ih hcs]

lemma splitComma_append (l rest : List Char) (h : ',' ∉ l) :
    splitComma (l ++ ',' :: rest) = l :: splitComma rest := by
  induction l with
  | nil =>
    simp only [List.nil_append]
    rw [splitComma_cons, if_pos rfl]
  | cons c cs ih =>
    have hc : ¬(c = ',') := fun hcc => h (hcc ▸ List.mem_cons_self c cs)
    have hcs : ',' ∉ cs := fun hmem => h (List.mem_cons_of_mem c hmem)
    simp only [List.cons_append]
    rw [splitComma_cons, if_neg hc, ih hcs]

lemma splitComma_joinComma (ls : List (List Char)) (hne : ls ≠ [])
    (h : ∀ l ∈ ls, ',' ∉ l) : splitComma (joinComma ls) = ls := by
  induction ls with
  | nil => exact absurd rfl hne
  | cons g gs ih =>
    cases gs with
    | nil =>
      show splitComma (joinComma [g]) = [g]
      unfold joinComma
      exact splitComma_no_comma g (h g (List.mem_cons_self g []))
    | cons g' gs' =>
      have hj : joinComma (g :: g' :: gs') = g ++ ',' :: joinComma (g' :: gs') := rfl
      rw [hj, splitComma_append g _ (h g (List.mem_cons_self g _)),
        ih (by simp) (fun l hl => h l (List.mem_cons_of_mem g hl))]

/-- Stable text form of a shape tuple (comma-separated decimal). -/
def serializeNats (l : List ℕ) : String :=
  String.mk (joinComma (l.map natToChars))

/-- Restore a shape tuple from its text form. -/
def parseNats (s : String) : List ℕ :=
  (splitComma s.toList).map charsToNat

/-- Stable text form of a dims tuple (comma-separated names). -/
def serializeStrs (l : List String) : String :=
  String.mk (joinComma (l.map String.toList))

/-- Restore a dims tuple from its text form. -/
def parseStrs (s : String) : List String :=
  (splitComma s.toList).map String.mk

lemma parseNats_serializeNats (l : List ℕ) (h : l ≠ []) :
    parseNats (serializeNats l) = l := by
  unfold parseNats serializeNats
  have hmk : (String.mk (joinComma (l.map natToChars))).toList
      = joinComma (l.map natToChars) := rfl
  rw [hmk, splitComma_joinComma (l.map natToChars) (by simpa using h)
    (fun x hx => by
      obtain ⟨k, -, hk⟩ := List.mem_map.mp hx
      exact hk ▸ natToChars_no_comma k)]
  rw [List.map_map]
  have : ∀ x ∈ l, (charsToNat ∘ natToChars) x = id x := fun x _ =>
    charsToNat_natToChars x
  rw [List.map_congr_left this, List.map_id]

lemma parseStrs_serializeStrs (l : List String) (h : l ≠ [])
    (hc : ∀ s ∈ l, ',' ∉ s.toList) :
    parseStrs (serializeStrs l) = l := by
  unfold parseStrs serializeStrs
  have hmk : (String.mk (joinComma (l.map String.toList))).toList
      = joinComma (l.map String.toList) := rfl
  rw [hmk, splitComma_joinComma (l.map String.toList) (by simpa using h)
    (fun x hx => by
      obtain ⟨s, hs, hsx⟩ := List.mem_map.mp hx
      exact hsx ▸ hc s hs)]
  rw [List.map_map]
  have : ∀ x ∈ l, (String.mk ∘ String.toList) x = id x := fun x _ => by
    cases x
    rfl
  rw [List.map_congr_left this, List.map_id]

/-- Modelled from the spec: the persisted unit — the WeightOperator plus
method, periodic, extrap_method, extrap_dist_exponent, the grid shapes and
the spatial dim names (the WeightStore module is absent from this
snapshot). -/
structure WeightDescriptor where
  op : WeightOperator
  method : String
  periodic : Bool
  extrap_method : String
  extrap_dist_exponent : ℚ
  shape_source : List ℕ
  shape_target : List ℕ
  dims_source : List String
  dims_target : List String
deriving DecidableEq, Repr

/-- Modelled from the spec: the self-describing weight file, with variables
row(nnz), col(nnz), S(nnz) and scalar attributes; shape and dims tuples are
serialized to a stable text form. -/
structure WeightFile where
  row : List ℕ
  col : List ℕ
  S : List ℚ
  n_src : ℕ
  n_dst : ℕ
  method : String
  periodic : Bool
  extrap_method : String
  extrap_dist_exponent : ℚ
  shape_source : String
  shape_target : String
  dims_source : String
  dims_target : String
deriving DecidableEq, Repr

/-- Modelled from the spec: WeightStore.save writes the triplets plus all
identity metadata, serializing tuple-valued fields to text. -/
def WeightStore.save (d : WeightDescriptor) : WeightFile :=
  { row := d.op.triplets.map (fun t => t.1)
    col := d.op.triplets.map (fun t => t.2.1)
    S := d.op.triplets.map (fun t => t.2.2)
    n_src := d.op.nSrc
    n_dst := d.op.nDst
    method := d.method
    periodic := d.periodic
    extrap_method := d.extrap_method
    extrap_dist_exponent := d.extrap_dist_exponent
    shape_source := serializeNats d.shape_source
    shape_target := serializeNats d.shape_target
    dims_source := serializeStrs d.dims_source
    dims_target := serializeStrs d.dims_target }

/-- Modelled from the spec: WeightStore.load reconstructs a
WeightDescriptor from a weight file, restoring tuple fields from their
text form. -/
def WeightStore.load (f : WeightFile) : WeightDescriptor :=
  { op := { nSrc := f.n_src, nDst := f.n_dst, triplets := f.row.zip (f.col.zip f.S) }
    method := f.method
    periodic := f.periodic
    extrap_method := f.extrap_method
    extrap_dist_exponent := f.extrap_dist_exponent
    shape_source := parseNats f.shape_source
    shape_target := parseNats f.shape_target
    dims_source := parseStrs f.dims_source
    dims_target := parseStrs f.dims_target }

lemma zip_proj_triplets (l : List (ℕ × ℕ × ℚ)) :
    (l.map (fun t => t.1)).zip ((l.map (fun t => t.2.1)).zip (l.map (fun t => t.2.2))) = l := by
  induction l with
  | nil => rfl
  | cons t l ih =>
    simp only [List.map_cons, List.zip_cons_cons, ih]

lemma load_save_op (d : WeightDescriptor) :
    (WeightStore.load (WeightStore.save d)).op = d.op := by
  show ({ nSrc := d.op.nSrc, nDst := d.op.nDst
          triplets := (d.op.triplets.map (fun t => t.1)).zip
            ((d.op.triplets.map (fun t => t.2.1)).zip
              (d.op.triplets.map (fun t => t.2.2))) } : WeightOperator) = d.op
  rw [zip_proj_triplets]

/-- C6: WeightStore.load after WeightStore.save reconstructs a descriptor
whose triplets and identity metadata are bit-identical to the original,
with tuple-valued fields restored from their serialized text form, for
every descriptor whose shape and dims tuples are nonempty and whose dim
names contain no separator comma. -/
theorem weight_store_round_trip (d : WeightDescriptor)
    (hss : d.shape_source ≠ []) (hst : d.shape_target ≠ [])
    (hds : d.dims_source ≠ []) (hdt : d.dims_target ≠ [])
    (hcs : ∀ s ∈ d.dims_source, ',' ∉ s.toList)
    (hct : ∀ s ∈ d.dims_target, ',' ∉ s.toList) :
    WeightStore.load (WeightStore.save d) = d := by
  have hop := load_save_op d
  cases d with
  | mk op method periodic extrap_method extrap_dist_exponent
      shape_source shape_target dims_source dims_target =>
    simp only [WeightStore.load, WeightStore.save] at hop ⊢
    rw [hop, parseNats_serializeNats shape_source hss,
      parseNats_serializeNats shape_target hst,
      parseStrs_serializeStrs dims_source hds hcs,
      parseStrs_serializeStrs dims_target hdt hct]

/-- C6 witness: the round trip at a concrete descriptor for an 18×36 to
9×18 bilinear mapping over dims (lat, lon). -/
theorem weight_store_round_trip_witness :
    WeightStore.load (WeightStore.save
      ⟨⟨648, 162, [(0, 0, 1), (1, 2, (1 : ℚ) / 2)]⟩, "bilinear", true, "none", 2,
        [18, 36], [9, 18], ["lat", "lon"], ["lat", "lon"]⟩)
      = ⟨⟨648, 162, [(0, 0, 1), (1, 2, (1 : ℚ) / 2)]⟩, "bilinear", true, "none", 2,
        [18, 36], [9, 18], ["lat", "lon"], ["lat", "lon"]⟩ :=
  weight_store_round_trip _
    (by decide) (by decide) (by decide) (by decide) (by decide) (by decide)

/-- Modelled from the spec: the identity key of a weight set — shapes,
dims, method, periodic, extrap_method; reuse requires exact match. -/
@[ext]
structure IdentityKey where
  shape_source : List ℕ
  shape_target : List ℕ
  dims_source : List String
  dims_target : List String
  method : String
  periodic : Bool
  extrap_method : String
deriving DecidableEq, Repr

/-- Modelled from the spec: the identity key carried by a stored
descriptor. -/
def identityKey (d : WeightDescriptor) : IdentityKey :=
  { shape_source := d.shape_source
    shape_target := d.shape_target
    dims_source := d.dims_source
    dims_target := d.dims_target
    method := d.method
    periodic := d.periodic
    extrap_method := d.extrap_method }

/-- Modelled from the spec: in reuse mode the caller recomputes the
expected identity key from the current grids and compares it field by
field to the stored metadata; the first mismatch raises a validation error
naming that field. -/
def validateIdentity (stored current : IdentityKey) : Except String Unit :=
  if stored.shape_source ≠ current.shape_source then
    Except.error "Source grid shape mismatch"
  else if stored.shape_target ≠ current.shape_target then
    Except.error "Target grid shape mismatch"
  else if stored.dims_source ≠ current.dims_source then
    Except.error "Source grid dims mismatch"
  else if stored.dims_target ≠ current.dims_target then
    Except.error "Target grid dims mismatch"
  else if stored.method ≠ current.method then
    Except.error "Method mismatch"
  else if stored.periodic ≠ current.periodic then
    Except.error "Periodic flag mismatch"
  else if stored.extrap_method ≠ current.extrap_method then
    Except.error "Extrapolation method mismatch"
  else Except.ok ()

/-- Modelled from the spec: engine construction in reuse mode — identity
validation runs here, and only here; a successful construction yields the
resident operator, on which apply never re-validates. -/
def constructEngine (d : WeightDescriptor) (current : IdentityKey) :
    Except String WeightOperator :=
  match validateIdentity (identityKey d) current with
  | Except.error e => Except.error e
  | Except.ok _ => Except.ok d.op

/-- Which identity field a validation message names, and that this field
really disagrees between the two keys. -/
def mismatchNamed (msg : String) (a b : IdentityKey) : Prop :=
  (msg = "Source grid shape mismatch" ∧ a.shape_source ≠ b.shape_source) ∨
  (msg = "Target grid shape mismatch" ∧ a.shape_target ≠ b.shape_target) ∨
  (msg = "Source grid dims mismatch" ∧ a.dims_source ≠ b.dims_source) ∨
  (msg = "Target grid dims mismatch" ∧ a.dims_target ≠ b.dims_target) ∨
  (msg = "Method mismatch" ∧ a.method ≠ b.method) ∨
  (msg = "Periodic flag mismatch" ∧ a.periodic ≠ b.periodic) ∨
  (msg = "Extrapolation method mismatch" ∧ a.extrap_method ≠ b.extrap_method)

/-- C7: in reuse mode, whenever the stored identity key differs in any
field from the key recomputed from the current grids, construction fails
with a validation error whose message names a field on which the two keys
really disagree; validation is part of construction only, so the failure
happens at construction time, never at apply time. -/
theorem reuse_identity_mismatch (d : WeightDescriptor) (current : IdentityKey)
    (h : identityKey d ≠ current) :
    ∃ msg, constructEngine d current = Except.error msg ∧
      mismatchNamed msg (identityKey d) current := by
  unfold constructEngine validateIdentity mismatchNamed
  set a := identityKey d with ha
  by_cases h1 : a.shape_source = current.shape_source
  case neg => exact ⟨_, by simp [h1], Or.inl ⟨rfl, h1⟩⟩
  by_cases h2 : a.shape_target = current.shape_target
  case neg => exact ⟨_, by simp [h1, h2], Or.inr (Or.inl ⟨rfl, h2⟩)⟩
  by_cases h3 : a.dims_source = current.dims_source
  case neg => exact ⟨_, by simp [h1, h2, h3], Or.inr (Or.inr (Or.inl ⟨rfl, h3⟩))⟩
  by_cases h4 : a.dims_target = current.dims_target
  case neg =>
    exact ⟨_, by simp [h1, h2, h3, h4], Or.inr (Or.inr (Or.inr (Or.inl ⟨rfl, h4⟩)))⟩
  by_cases h5 : a.method = current.method
  case neg =>
    exact ⟨_, by simp [h1, h2, h3, h4, h5],
      Or.inr (Or.inr (Or.inr (Or.inr (Or.inl ⟨rfl, h5⟩))))⟩
  by_cases h6 : a.periodic = current.periodic
  case neg =>
    exact ⟨_, by simp [h1, h2, h3, h4, h5, h6],
      Or.inr (Or.inr (Or.inr (Or.inr (Or.inr (Or.inl ⟨rfl, h6⟩)))))⟩
  by_cases h7 : a.extrap_method = current.extrap_method
  case neg =>
    exact ⟨_, by simp [h1, h2, h3, h4, h5, h6, h7],
      Or.inr (Or.inr (Or.inr (Or.inr (Or.inr (Or.inr ⟨rfl, h7⟩)))))⟩
  exact absurd (IdentityKey.ext h1 h2 h3 h4 h5 h6 h7) h

/-- C7 witness: a stored 18×36 bilinear descriptor validated against a
current key that differs only in method fails at construction with a
message naming the method field. -/
theorem reuse_identity_mismatch_witness :
    ∃ msg, constructEngine
        ⟨⟨648, 162, []⟩, "bilinear", true, "none", 2,
          [18, 36], [9, 18], ["lat", "lon"], ["lat", "lon"]⟩
        ⟨[18, 36], [9, 18], ["lat", "lon"], ["lat", "lon"],
          "conservative", true, "none"⟩ = Except.error msg ∧
      mismatchNamed msg
        (identityKey ⟨⟨648, 162, []⟩, "bilinear", true, "none", 2,
          [18, 36], [9, 18], ["lat", "lon"], ["lat", "lon"]⟩)
        ⟨[18, 36], [9, 18], ["lat", "lon"], ["lat", "lon"],
          "conservative", true, "none"⟩ :=
  reuse_identity_mismatch _ _ (by decide)

/-- Modelled from the spec: the row-sum invariant of a weight operator —
every mapped destination row (one receiving a triplet) has total weight
within eps of 1, and every unmapped row has total weight exactly zero. -/
def rowSumInvariant (op : WeightOperator) (eps : ℚ) : Prop :=
  ∀ r < op.nDst,
    (op.mappedRow r = true → |totalWeight op r - 1| ≤ eps) ∧
    (op.mappedRow r = false → totalWeight op r = 0)

lemma totalWeight_of_unmapped (op : WeightOperator) (r : ℕ)
    (h : op.mappedRow r = false) : totalWeight op r = 0 := by
  unfold totalWeight
  have hall : ∀ t ∈ op.triplets, ¬((fun t => t.1 == r) t = true) := by
    simpa [WeightOperator.mappedRow, List.any_eq_false] using h
  rw [List.filter_eq_nil_iff.mpr hall]
  rfl

/-- C8: unmapped destination rows always have total weight exactly zero,
and the row-sum invariant survives persistence: an operator loaded back
from a saved descriptor satisfies exactly the invariant the saved operator
satisfied — triplets are stored verbatim, and no operation of the model
mutates an operator after creation. -/
theorem weight_operator_row_sums :
    (∀ (op : WeightOperator) (r : ℕ), op.mappedRow r = false → totalWeight op r = 0) ∧
    (∀ (d : WeightDescriptor) (eps : ℚ), rowSumInvariant d.op eps →
      rowSumInvariant (WeightStore.load (WeightStore.save d)).op eps) := by
  refine ⟨totalWeight_of_unmapped, ?_⟩
  intro d eps h
  rw [load_save_op]
  exact h

/-- C8 witness: a concrete unmapped row of a concrete operator has zero
total weight, and the exact row-sum invariant of a concrete saved
descriptor holds of the loaded operator. -/
theorem weight_operator_row_sums_witness :
    totalWeight ⟨2, 2, [(0, 0, 1), (1, 1, 1)]⟩ 5 = 0 ∧
    rowSumInvariant (WeightStore.load (WeightStore.save
      ⟨⟨2, 2, [(0, 0, 1), (1, 1, 1)]⟩, "bilinear", false, "none", 0,
        [1, 2], [1, 2], ["lat", "lon"], ["lat", "lon"]⟩)).op 0 := by
  constructor
  · exact weight_operator_row_sums.1 ⟨2, 2, [(0, 0, 1), (1, 1, 1)]⟩ 5 (by decide)
  · refine weight_operator_row_sums.2
      ⟨⟨2, 2, [(0, 0, 1), (1, 1, 1)]⟩, "bilinear", false, "none", 0,
        [1, 2], [1, 2], ["lat", "lon"], ["lat", "lon"]⟩ 0 ?_
    intro r hr
    interval_cases r <;>
      exact ⟨fun _ => by simp [totalWeight], fun hfalse => by simp_all [WeightOperator.mappedRow]⟩

/-- Modelled from the spec: the recursive transform of the spatial
auxiliary coordinates attached to an input. Coordinates are numbered
0..n-1; refs c lists the coordinate identities that coordinate c
references. The transform threads a visited set of coordinate identities
for the duration of one top-level call, descends into a coordinate only if
it is unvisited, and returns the trace of coordinates descended into. It
is defined by well-founded recursion on the unvisited coordinates, so it
is total on every reference graph, cyclic ones included. -/
def visitAux (refs : ℕ → List ℕ) (n : ℕ) : Finset ℕ → List ℕ → List ℕ
  | _, [] => []
  | visited, c :: rest =>
    if h : c ∈ visited ∨ n ≤ c then visitAux refs n visited rest
    else c :: visitAux refs n (insert c visited) (refs c ++ rest)
termination_by visited pending => ((Finset.range n \ visited).card, pending.length)
decreasing_by
  · apply Prod.Lex.right
    simp
  · apply Prod.Lex.left
    push_neg at h
    obtain ⟨hcv, hcn⟩ := h
    apply Finset.card_lt_card
    constructor
    · exact Finset.sdiff_subset_sdiff (Finset.Subset.refl _) (Finset.subset_insert c visited)
    · intro hsub
      have hc : c ∈ Finset.range n \ visited := by
        simp [Finset.mem_sdiff, Finset.mem_range, hcn, hcv]
      have := hsub hc
      simp [Finset.mem_sdiff] at this

lemma visitAux_spec (refs : ℕ → List ℕ) (n : ℕ) (visited : Finset ℕ) (pending : List ℕ) :
    (visitAux refs n visited pending).Nodup ∧
    ∀ c ∈ visitAux refs n visited pending, c ∉ visited ∧ c < n := by
  induction visited, pending using visitAux.induct refs n with
  | case1 visited => simp [visitAux]
  | case2 visited c rest h ih =>
    rw [visitAux, dif_pos h]
    exact ih
  | case3 visited c rest h ih =>
    rw [visitAux, dif_neg h]
    push_neg at h
    obtain ⟨hcv, hcn⟩ := h
    obtain ⟨ihnd, ihmem⟩ := ih
    refine ⟨List.nodup_cons.mpr ⟨?_, ihnd⟩, ?_⟩
    · intro hmem
      exact (ihmem c hmem).1 (Finset.mem_insert_self c visited)
    · intro x hx
      rcases List.mem_cons.mp hx with hxc | hxtail
      · exact hxc ▸ ⟨hcv, hcn⟩
      · obtain ⟨hni, hlt⟩ := ihmem x hxtail
        exact ⟨fun hxv => hni (Finset.mem_insert_of_mem hxv), hlt⟩

/-- C9: the visited-set transform of auxiliary coordinates never descends
into the same coordinate twice within one top-level call (its visit trace
has no duplicates and avoids the already-visited set), and it is a total
function, so every call terminates; on two mutually cross-referencing
coordinates (0 references 1, 1 references 0) one top-level call completes
with trace [0, 1]. -/
theorem aux_coord_recursion_terminates :
    (∀ (refs : ℕ → List ℕ) (n : ℕ) (visited : Finset ℕ) (pending : List ℕ),
      (visitAux refs n visited pending).Nodup ∧
      ∀ c ∈ visitAux refs n visited pending, c ∉ visited ∧ c < n) ∧
    visitAux (fun c => if c = 0 then [1] else if c = 1 then [0] else []) 2 ∅ [0]
      = [0, 1] := by
  refine ⟨visitAux_spec, ?_⟩
  rw [visitAux, dif_neg (by simp)]
  norm_num
  rw [visitAux, dif_neg (by simp)]
  norm_num
  rw [visitAux, dif_pos (by simp)]
  rw [visitAux]

/-- C9 witness: on the two-coordinate cycle, the trace is duplicate-free,
and membership of coordinate 1 in the trace yields that it was unvisited
and in range. -/
theorem aux_coord_recursion_terminates_witness :
    (visitAux (fun c => if c = 0 then [1] else if c = 1 then [0] else []) 2 ∅ [0]).Nodup ∧
    ((1 : ℕ) ∉ (∅ : Finset ℕ) ∧ 1 < 2) :=
  ⟨(aux_coord_recursion_terminates.1
      (fun c => if c = 0 then [1] else if c = 1 then [0] else []) 2 ∅ [0]).1,
   (aux_coord_recursion_terminates.1
      (fun c => if c = 0 then [1] else if c = 1 then [0] else []) 2 ∅ [0]).2 1
     (by rw [aux_coord_recursion_terminates.2]; decide)⟩

end Xregrid
